import Mathlib

/-!
Verification of the Excel file consolidator (src/app.py).

The three core transformation functions of the program — `excel_to_json`,
`rearrange_json_fields` and `json_to_excel` — are shallowly embedded below.

Modelling conventions:
* A spreadsheet cell is `Option String`; `none` stands for a missing value
  (pandas NaN).  `pd.read_excel(file, header=None)` yields a rectangular
  frame, so a `Table` carries its column count `ncols`; reading a cell past
  the end of a row yields `none` (pandas pads short rows with NaN).
* A JSON record (a Python dict) is an association list `List (String ×
  String)` preserving insertion order, exactly as Python 3.7+ dicts do.
* The streamlit calls `st.info` / `st.success` / `st.warning` / `st.error`
  only emit user-visible messages; they are modelled as an ordered list of
  `Report` values returned alongside the data.
* A `try/except` that catches a failing file read is modelled by the input
  constructor `UploadedFile.bad`: processing it produces the caught-error
  report and no records.
* In `rearrange_json_fields` the Python code calls `record.get` on every
  element of the input list; an element that is not a mapping makes that
  call raise `AttributeError`, which the function does not catch, so the
  embedding returns `Except String (List Record)` and an input element that
  is not a mapping is the constructor `Entry.nonMap` carrying the message
  of the exception it provokes.
-/

set_option autoImplicit false

namespace ExcelConsolidator

/-- A spreadsheet cell: `none` models a pandas NaN / missing value. -/
abbrev Cell := Option String

/-- One source table, as produced by `pd.read_excel(file, header=None)`:
a rectangular grid with `ncols` columns. -/
structure Table where
  ncols : Nat
  rows : List (List Cell)

/-- A JSON record: a Python dict modelled as an insertion-ordered
association list. -/
abbrev Record := List (String × String)

/-- Python `dict` key lookup returning `none` when the key is absent
(first occurrence wins, as dict keys are unique in Python). -/
def Record.get (r : Record) (k : String) : Option String :=
  match r with
  | [] => none
  | (k2, v) :: rest => if k2 = k then some v else Record.get rest k

/-- The keys of a record, in insertion order. -/
def Record.keys (r : Record) : List String := r.map Prod.fst

/-- One uploaded file: either readable into a `Table`, or one whose
processing raises an exception (`pd.read_excel` failing on a malformed
file), which the `try/except` in `excel_to_json` catches. -/
inductive UploadedFile where
  | good (name : String) (t : Table)
  | bad (name : String)

/-- The user-visible messages emitted while processing, in emission order:
`emptyRowInfo` is the `st.info` on hitting an empty row, `success` the
`st.success` per-file row count, `schemaMismatch` the `st.warning` for a
table with too few columns, `processingError` the `st.error` for a caught
exception. -/
inductive Report where
  | emptyRowInfo (file : String) (idx : Nat)
  | success (file : String) (count : Nat)
  | schemaMismatch (file : String)
  | processingError (file : String)
deriving DecidableEq

/-- app.py line 15: `columns_to_capture = [2, 3, 4, 5, 7, 8, 9]`. -/
def columns_to_capture : List Nat := [2, 3, 4, 5, 7, 8, 9]

/-- app.py lines 18-26: the field names assigned to the captured columns. -/
def field_names : List String :=
  ["Full Name", "Phone Number", "School Name", "Designation - Level",
   "Email", "Region", "District"]

/-- Python `str()` of a cell, as `row.astype(str)` computes it: a NaN cell
stringifies to `"nan"`. -/
def cellStr (c : Cell) : String := c.getD "nan"

/-- Python `str.strip()`: remove leading and trailing whitespace. -/
def strip (s : String) : String :=
  String.mk (((s.data.dropWhile Char.isWhitespace).reverse.dropWhile
    Char.isWhitespace).reverse)

/-- app.py line 40: `df.iloc[:, columns_to_capture]` applied to one row —
the 7 captured cells of the row. -/
def selectCells (row : List Cell) : List Cell :=
  columns_to_capture.map (fun i => row.getD i none)

/-- app.py line 49:
`row.isna().all() or (row.astype(str).str.strip() == '').all()`. -/
def rowIsEmpty (cells : List Cell) : Bool :=
  cells.all (fun c => c.isNone) ||
    cells.all (fun c => strip (cellStr c) == "")

/-- app.py line 56: `row.fillna("").to_dict()` — the record built from the
7 captured cells, NaN replaced by the empty string, keyed by
`field_names` (assigned on line 43). -/
def mkRecord (cells : List Cell) : Record :=
  field_names.zip (cells.map (fun c => c.getD ""))

/-- app.py lines 46-53: the `for index, row in selected_df.iterrows()`
loop — scan rows in order, stop (`break`) at the first empty row, collect
a record per non-empty row.  `idx` is the pandas index label of the first
row (2 after the header skip, 0 otherwise), reported by the `st.info`
message. -/
def scanRows (file : String) : List (List Cell) → Nat → List Record × List Report
  | [], _ => ([], [])
  | row :: rest, idx =>
    let cells := selectCells row
    if rowIsEmpty cells then
      ([], [Report.emptyRowInfo file idx])
    else
      let (recs, reps) := scanRows file rest (idx + 1)
      (mkRecord cells :: recs, reps)

/-- app.py lines 29-66: the loop body of `excel_to_json` for one uploaded
file — header skip (lines 35-36), column-count precondition (line 39),
row scan, success/warning messages, `except` clause (lines 63-66). -/
def processFile : UploadedFile → List Record × List Report
  | .bad file => ([], [Report.processingError file])
  | .good file t =>
    let rows := if t.rows.length > 2 then t.rows.drop 2 else t.rows
    let startIdx := if t.rows.length > 2 then 2 else 0
    if 9 < t.ncols then
      let (recs, reps) := scanRows file rows startIdx
      (recs, reps ++ [Report.success file recs.length])
    else
      ([], [Report.schemaMismatch file])

/-- app.py lines 10-68: `excel_to_json` over the list of uploaded files,
returning the combined records together with the emitted messages. -/
def excel_to_json : List UploadedFile → List Record × List Report
  | [] => ([], [])
  | f :: fs =>
    let (recs, reps) := processFile f
    let (recs2, reps2) := excel_to_json fs
    (recs ++ recs2, reps ++ reps2)

/-- app.py lines 75-83: the target field order of the rearranger. -/
def field_order : List String :=
  ["Full Name", "Email", "Phone Number", "School Name",
   "Designation - Level", "Region", "District"]

/-- app.py line 86:
`{field: record.get(field, "") for field in field_order}`. -/
def rearrangeRecord (record : Record) : Record :=
  field_order.map (fun field => (field, (record.get field).getD ""))

/-- One element of the JSON array handed to `rearrange_json_fields`:
either a mapping (a dict) or a non-mapping value (string, list, number, …)
on which `.get` raises an `AttributeError` whose message is `err`. -/
inductive Entry where
  | map (r : Record)
  | nonMap (err : String)

/-- app.py lines 70-89: `rearrange_json_fields`.  Each mapping entry is
rebuilt in `field_order`; the first non-mapping entry raises, the
exception propagates, and the caller receives no list at all. -/
def rearrange_json_fields : List Entry → Except String (List Record)
  | [] => .ok []
  | .map r :: rest =>
    (rearrange_json_fields rest).map (fun out => rearrangeRecord r :: out)
  | .nonMap err :: _ => .error err

/-- The tabular file produced by `json_to_excel`: one worksheet, a header
row, then one row of cells per record (a `none` cell is written blank). -/
structure Tabular where
  sheetName : String
  header : List String
  rows : List (List Cell)
deriving DecidableEq

/-- Extend an accumulated column list with the keys of one record,
appending each key not already present (the step `pd.DataFrame` performs
per dict when it derives the columns). -/
def addKeys (acc : List String) (ks : List String) : List String :=
  ks.foldl (fun a k => if k ∈ a then a else a ++ [k]) acc

/-- The column headers `pd.DataFrame(json_data)` derives from a list of
dicts: the union of the keys, in order of first appearance across the
records. -/
def dataFrameColumns (json_data : List Record) : List String :=
  json_data.foldl (fun acc r => addKeys acc r.keys) []

/-- All keys of all records, concatenated in record order. -/
def allKeys (json_data : List Record) : List String :=
  (json_data.map Record.keys).flatten

/-- Modelled from the spec: the column order §4.3 describes — "the union
of field names encountered, ordered by first-appearance across records".
Keeps the first occurrence of each name of a list and drops the later
duplicates; compared below with the columns the code computes. -/
def dedupFirst : List String → List String
  | [] => []
  | k :: rest => k :: dedupFirst (rest.filter (fun x => x != k))
termination_by l => l.length
decreasing_by
  simp only [List.length_cons]
  exact Nat.lt_succ_of_le (List.length_filter_le _ _)

/-- app.py lines 91-103: `json_to_excel`.  The state-passing second
component returns the input record set as it stands after the call:
no statement of the function writes to `json_data` or to any record in it
(`pd.DataFrame` copies the values), so the post-state is the input. -/
def json_to_excel (json_data : List Record) : Tabular × List Record :=
  let cols := dataFrameColumns json_data
  (⟨"Staff Data", cols, json_data.map (fun r => cols.map (fun h => r.get h))⟩,
   json_data)

/-! ### Concrete source tables and records used as test inputs -/

/-- A 10-column data row: captured cells hold staff data, the Email cell
(position 7) holds an address and position 6 is unread. -/
def exRow0 : List Cell :=
  [some "x", some "y", some "A", some "111", some "SchoolX", some "L1",
   none, some "e@x.com", some "R1", some "D1"]

/-- A 10-column row whose 7 captured cells are all the empty string. -/
def exRowBlank : List Cell :=
  [none, none, some "", some "", some "", some "", none, some "", some "",
   some ""]

/-- A 10-column row whose 7 captured cells are a mixture of NaN and
blank-after-stripping strings. -/
def exRowMixed : List Cell :=
  [some "h", some "h", none, some "", some " ", some "", some "ignored",
   some "", some "", some ""]

/-- A 10-column table with exactly 2 rows, the first holding data. -/
def exTwoRow : Table := ⟨10, [exRow0, exRowBlank]⟩

/-- A 4-row table whose first two rows hold data. -/
def exSkewA : Table := ⟨10, [exRow0, exRow0, exRow0, exRowBlank]⟩

/-- A 4-row table agreeing with `exSkewA` from row 2 on but with blank
rows in positions 0 and 1. -/
def exSkewB : Table := ⟨10, [exRowBlank, exRowBlank, exRow0, exRowBlank]⟩

/-- A table whose row 2 mixes NaN and blank captured cells and whose
row 3 holds data. -/
def exMixedTable : Table := ⟨10, [exRow0, exRow0, exRowMixed, exRow0, exRowBlank]⟩

/-- A table with only 9 columns. -/
def exNarrow : Table := ⟨9, [exRow0.take 9, exRow0.take 9, exRow0.take 9]⟩

/-- A record with two of the canonical fields. -/
def exRecIn : Record := [("Full Name", "A"), ("Phone Number", "111")]

/-- The rearrangement of `exRecIn`: all 7 canonical fields in target
order, missing ones defaulted to the empty string. -/
def exRecOut : Record :=
  [("Full Name", "A"), ("Email", ""), ("Phone Number", "111"),
   ("School Name", ""), ("Designation - Level", ""), ("Region", ""),
   ("District", "")]

/-! ### General lemmas about the embedded functions -/

theorem excel_to_json_cons (f : UploadedFile) (fs : List UploadedFile) :
    excel_to_json (f :: fs) =
      ((processFile f).1 ++ (excel_to_json fs).1,
       (processFile f).2 ++ (excel_to_json fs).2) := rfl

theorem excel_to_json_append (xs ys : List UploadedFile) :
    excel_to_json (xs ++ ys) =
      ((excel_to_json xs).1 ++ (excel_to_json ys).1,
       (excel_to_json xs).2 ++ (excel_to_json ys).2) := by
  induction xs with
  | nil => simp [excel_to_json]
  | cons f fs ih => simp [excel_to_json_cons, ih]

theorem scanRows_fst (file : String) (rows : List (List Cell)) (i : Nat) :
    (scanRows file rows i).1 =
      (rows.takeWhile (fun r => !rowIsEmpty (selectCells r))).map
        (fun r => mkRecord (selectCells r)) := by
  induction rows generalizing i with
  | nil => rfl
  | cons row rest ih =>
    by_cases h : rowIsEmpty (selectCells row)
    · simp [scanRows, h, List.takeWhile_cons]
    · simp [scanRows, h, List.takeWhile_cons, ih]

theorem selectCells_length (row : List Cell) : (selectCells row).length = 7 := by
  simp [selectCells, columns_to_capture]

theorem mkRecord_keys (cells : List Cell) (h : 7 ≤ cells.length) :
    (mkRecord cells).keys = field_names := by
  unfold mkRecord Record.keys
  rw [List.map_fst_zip]
  simpa [field_names] using h

theorem mkRecord_length (cells : List Cell) (h : 7 ≤ cells.length) :
    (mkRecord cells).length = 7 := by
  simp only [mkRecord, List.length_zip, List.length_map, field_names]
  simp only [List.length_cons, List.length_nil]
  omega

theorem processFile_mem (f : UploadedFile) (r : Record)
    (hr : r ∈ (processFile f).1) :
    ∃ cells, r = mkRecord cells ∧ cells.length = 7 := by
  cases f with
  | bad file => simp [processFile] at hr
  | good file t =>
    simp only [processFile] at hr
    split at hr
    · rw [scanRows_fst] at hr
      rcases List.mem_map.mp hr with ⟨row, _, hrow⟩
      exact ⟨selectCells row, hrow.symm, selectCells_length row⟩
    · simp at hr

theorem rowIsEmpty_iff (cells : List Cell) :
    rowIsEmpty cells = true ↔
      ((∀ c ∈ cells, c = none) ∨ (∀ c ∈ cells, strip (cellStr c) = "")) := by
  simp [rowIsEmpty, List.all_eq_true, Option.isNone_iff_eq_none]

theorem rearrange_ok (l : List Record) :
    rearrange_json_fields (l.map Entry.map) = .ok (l.map rearrangeRecord) := by
  induction l with
  | nil => rfl
  | cons r rest ih => simp [rearrange_json_fields, ih, Except.map]

theorem rearrangeRecord_keys (r : Record) :
    (rearrangeRecord r).keys = field_order := by
  simp only [rearrangeRecord, Record.keys, List.map_map]
  exact List.map_id field_order

theorem rearrangeRecord_length (r : Record) :
    (rearrangeRecord r).length = 7 := by
  simp [rearrangeRecord, field_order]

theorem rearrangeRecord_get_mem (r : Record) (f : String) (hf : f ∈ field_order) :
    (rearrangeRecord r).get f = some ((r.get f).getD "") := by
  fin_cases hf <;> simp [rearrangeRecord, field_order, Record.get]

theorem rearrangeRecord_idem (r : Record) :
    rearrangeRecord (rearrangeRecord r) = rearrangeRecord r := by
  simp [rearrangeRecord, field_order, Record.get]

theorem rearrange_out_shape (entries : List Entry) (out : List Record)
    (h : rearrange_json_fields entries = .ok out) :
    ∀ r ∈ out, ∃ r0, r = rearrangeRecord r0 := by
  induction entries generalizing out with
  | nil =>
    simp only [rearrange_json_fields, Except.ok.injEq] at h
    subst h; simp
  | cons e rest ih =>
    cases e with
    | map r0 =>
      simp only [rearrange_json_fields] at h
      cases hr : rearrange_json_fields rest with
      | error e2 => rw [hr] at h; simp [Except.map] at h
      | ok out2 =>
        rw [hr] at h
        simp only [Except.map, Except.ok.injEq] at h
        subst h
        intro r hmem
        rcases List.mem_cons.mp hmem with h1 | h1
        · exact ⟨r0, h1⟩
        · exact ih out2 hr r h1
    | nonMap err => simp [rearrange_json_fields] at h

theorem Record.get_eq_none_iff (r : Record) (k : String) :
    r.get k = none ↔ k ∉ r.keys := by
  induction r with
  | nil => simp [Record.get, Record.keys]
  | cons p rest ih =>
    obtain ⟨a, b⟩ := p
    by_cases h : a = k
    · subst h; simp [Record.get, Record.keys]
    · simp [Record.get, Record.keys, h, ih, Ne.symm h]

theorem dedupFirst_cons (k : String) (rest : List String) :
    dedupFirst (k :: rest) = k :: dedupFirst (rest.filter (fun x => x != k)) := by
  rw [dedupFirst]

theorem mem_dedupFirst (x : String) (l : List String) :
    x ∈ dedupFirst l ↔ x ∈ l := by
  induction l using dedupFirst.induct with
  | case1 => simp [dedupFirst]
  | case2 k rest ih =>
    rw [dedupFirst_cons]
    by_cases h : x = k
    · subst h; simp
    · simp only [List.mem_cons, h, false_or, ih, List.mem_filter]
      simp [h]

theorem addKeys_eq (ks : List String) : ∀ acc : List String,
    addKeys acc ks = acc ++ dedupFirst (ks.filter (fun k => decide (k ∉ acc))) := by
  induction ks with
  | nil => intro acc; simp [addKeys, dedupFirst]
  | cons k ks ih =>
    intro acc
    by_cases hk : k ∈ acc
    · have h1 : addKeys acc (k :: ks) = addKeys acc ks := by
        simp [addKeys, hk]
      rw [h1, ih, List.filter_cons]
      simp [hk]
    · have h1 : addKeys acc (k :: ks) = addKeys (acc ++ [k]) ks := by
        simp [addKeys, hk]
      have hfil : ks.filter (fun x => decide (x ∉ acc ++ [k])) =
          (ks.filter (fun x => decide (x ∉ acc))).filter (fun x => x != k) := by
        rw [List.filter_filter]
        apply List.filter_congr
        intro x _
        by_cases h1 : x = k
        · subst h1; simp
        · by_cases h2 : x ∈ acc <;> simp [h1, h2]
      rw [h1, ih, hfil]
      rw [List.filter_cons]
      simp only [hk, not_false_eq_true, decide_eq_true_eq, if_true, decide_True]
      rw [dedupFirst_cons]
      simp

theorem addKeys_append (acc xs ys : List String) :
    addKeys acc (xs ++ ys) = addKeys (addKeys acc xs) ys := by
  simp [addKeys, List.foldl_append]

theorem dataFrameColumns_eq (l : List Record) :
    dataFrameColumns l = dedupFirst (allKeys l) := by
  have h : ∀ acc, l.foldl (fun acc r => addKeys acc r.keys) acc =
      addKeys acc (allKeys l) := by
    induction l with
    | nil => intro acc; simp [allKeys, addKeys]
    | cons r rest ih =>
      intro acc
      simp only [List.foldl_cons, ih, allKeys, List.map_cons, List.flatten_cons]
      rw [addKeys_append]
  rw [dataFrameColumns, h, addKeys_eq]
  simp

theorem mem_allKeys (k : String) (l : List Record) :
    k ∈ allKeys l ↔ ∃ r ∈ l, k ∈ r.keys := by
  simp [allKeys, List.mem_flatten]

/-! ### The claims -/

/-- C1 (amended): for every source table with more than 2 rows and at
least 10 columns, extraction begins at row index 2 and no data from rows
0 or 1 appears in the resulting record set: the output of `excel_to_json`
is unchanged under any replacement of rows 0 and 1 that keeps the row
count above 2, and the records are exactly those scanned from
`rows.drop 2`. -/
theorem claim1_header_skip (file : String) (t t2 : Table)
    (ht : 2 < t.rows.length) (ht2 : 2 < t2.rows.length)
    (hc : t.ncols = t2.ncols) (hd : t.rows.drop 2 = t2.rows.drop 2) :
    excel_to_json [.good file t] = excel_to_json [.good file t2] ∧
    (9 < t.ncols →
      (excel_to_json [.good file t]).1 =
        ((t.rows.drop 2).takeWhile (fun r => !rowIsEmpty (selectCells r))).map
          (fun r => mkRecord (selectCells r))) := by
  obtain ⟨n, rows⟩ := t
  obtain ⟨n2, rows2⟩ := t2
  simp only at ht ht2 hc hd
  subst hc
  constructor
  · simp only [excel_to_json, processFile, gt_iff_lt, ht, ht2, if_true, hd]
  · intro hn
    simp only [excel_to_json, processFile, gt_iff_lt, ht, hn, if_true,
      List.append_nil]
    exact scanRows_fst file (rows.drop 2) 2

/-- C1 witness: two concrete 4-row tables differing only in rows 0 and 1
extract identically, and the extraction is the scan of rows 2 and up. -/
theorem claim1_witness :
    excel_to_json [.good "w.xlsx" exSkewA] = excel_to_json [.good "w.xlsx" exSkewB] ∧
    (excel_to_json [.good "w.xlsx" exSkewA]).1 =
      ((exSkewA.rows.drop 2).takeWhile (fun r => !rowIsEmpty (selectCells r))).map
        (fun r => mkRecord (selectCells r)) := by
  have h := claim1_header_skip "w.xlsx" exSkewA exSkewB (by decide) (by decide)
    rfl rfl
  exact ⟨h.1, h.2 (by decide)⟩

/-- C1 counterexample: a table with exactly 2 rows (≥ 2, as the claim
requires) and 10 columns is not header-skipped: the data of row 0 appears
in the resulting record set, so extraction did not begin at row index 2. -/
theorem claim1_counterexample :
    exTwoRow.rows.length = 2 ∧ 10 ≤ exTwoRow.ncols ∧
    (excel_to_json [.good "two.xlsx" exTwoRow]).1 =
      [[("Full Name", "A"), ("Phone Number", "111"), ("School Name", "SchoolX"),
        ("Designation - Level", "L1"), ("Email", "e@x.com"), ("Region", "R1"),
        ("District", "D1")]] := by decide

/-- C2 (amended): a row is treated as empty exactly when all 7 selected
cells are null/missing, or all 7 are (after string conversion and
whitespace-trimming) equal to the empty string; the scan keeps exactly
the rows before the first such row, so no row after the first empty row
contributes a record. -/
theorem claim2_empty_row_truncation :
    (∀ cells : List Cell, rowIsEmpty cells = true ↔
      ((∀ c ∈ cells, c = none) ∨ (∀ c ∈ cells, strip (cellStr c) = ""))) ∧
    (∀ (file : String) (rows : List (List Cell)) (i : Nat),
      (scanRows file rows i).1 =
        (rows.takeWhile (fun r => !rowIsEmpty (selectCells r))).map
          (fun r => mkRecord (selectCells r))) :=
  ⟨rowIsEmpty_iff, scanRows_fst⟩

/-- C2 counterexample: a row whose 7 selected cells are each null or
blank-after-trimming (the claim's per-cell notion of empty), which the
code does not treat as empty: the scan does not stop there, the row
itself yields a record and so does the data row after it. -/
theorem claim2_counterexample :
    (∀ c ∈ selectCells exRowMixed, c = none ∨ strip (cellStr c) = "") ∧
    rowIsEmpty (selectCells exRowMixed) = false ∧
    (excel_to_json [.good "m.xlsx" exMixedTable]).1.length = 2 := by decide

/-- C3: a source table with fewer than 10 columns contributes zero
records, yields the schema-mismatch warning, and the remaining files are
still processed. -/
theorem claim3_schema_mismatch (file : String) (t : Table)
    (fs gs : List UploadedFile) (h : t.ncols < 10) :
    excel_to_json (fs ++ .good file t :: gs) =
      ((excel_to_json fs).1 ++ (excel_to_json gs).1,
       (excel_to_json fs).2 ++
         Report.schemaMismatch file :: (excel_to_json gs).2) := by
  have hp : processFile (.good file t) = ([], [Report.schemaMismatch file]) := by
    simp only [processFile]
    rw [if_neg (by omega)]
  rw [excel_to_json_append, excel_to_json_cons, hp]
  simp

/-- C3 witness: a concrete 9-column table between two well-formed files
contributes no records and exactly the schema-mismatch report. -/
theorem claim3_witness :
    excel_to_json [.good "a.xlsx" exSkewA, .good "n.xlsx" exNarrow,
        .good "b.xlsx" exSkewB] =
      ((excel_to_json [.good "a.xlsx" exSkewA]).1 ++
         (excel_to_json [.good "b.xlsx" exSkewB]).1,
       (excel_to_json [.good "a.xlsx" exSkewA]).2 ++
         Report.schemaMismatch "n.xlsx" ::
           (excel_to_json [.good "b.xlsx" exSkewB]).2) :=
  claim3_schema_mismatch "n.xlsx" exNarrow [.good "a.xlsx" exSkewA]
    [.good "b.xlsx" exSkewB] (by decide)

/-- C4: rearranging a mapping yields the record whose keys are exactly
the target order, each field taking the input's value when the key
exists and the empty string otherwise, all other input fields dropped;
and the spec's concrete scenario holds. -/
theorem claim4_reorder_record (r : Record) :
    (rearrangeRecord r).keys = field_order ∧
    (rearrangeRecord r).get "Full Name" = some ((r.get "Full Name").getD "") ∧
    (rearrangeRecord r).get "Email" = some ((r.get "Email").getD "") ∧
    (rearrangeRecord r).get "Phone Number" = some ((r.get "Phone Number").getD "") ∧
    (rearrangeRecord r).get "School Name" = some ((r.get "School Name").getD "") ∧
    (rearrangeRecord r).get "Designation - Level" =
      some ((r.get "Designation - Level").getD "") ∧
    (rearrangeRecord r).get "Region" = some ((r.get "Region").getD "") ∧
    (rearrangeRecord r).get "District" = some ((r.get "District").getD "") ∧
    (∀ k, k ∉ field_order → (rearrangeRecord r).get k = none) ∧
    rearrange_json_fields [Entry.map exRecIn] = .ok [exRecOut] := by
  refine ⟨rearrangeRecord_keys r, ?_, ?_, ?_, ?_, ?_, ?_, ?_, ?_, rfl⟩
  · exact rearrangeRecord_get_mem r _ (by decide)
  · exact rearrangeRecord_get_mem r _ (by decide)
  · exact rearrangeRecord_get_mem r _ (by decide)
  · exact rearrangeRecord_get_mem r _ (by decide)
  · exact rearrangeRecord_get_mem r _ (by decide)
  · exact rearrangeRecord_get_mem r _ (by decide)
  · exact rearrangeRecord_get_mem r _ (by decide)
  · intro k hk
    rw [Record.get_eq_none_iff, rearrangeRecord_keys]
    exact hk

/-- C5: the rearranger is idempotent — feeding its output back in yields
the same output. -/
theorem claim5_reorder_idempotent (l out : List Record)
    (h : rearrange_json_fields (l.map Entry.map) = .ok out) :
    rearrange_json_fields (out.map Entry.map) = .ok out := by
  rw [rearrange_ok] at h
  simp only [Except.ok.injEq] at h
  subst h
  rw [rearrange_ok]
  simp [List.map_map, Function.comp, rearrangeRecord_idem]

/-- C5 witness: rearranging the already-rearranged concrete record set
reproduces it. -/
theorem claim5_witness :
    rearrange_json_fields ([exRecOut].map Entry.map) = .ok [exRecOut] :=
  claim5_reorder_idempotent [exRecIn] [exRecOut] rfl

/-- C6: every record the extractor produces has exactly the 7 canonical
field names as its keys, and so does every record the rearranger
produces; in particular every output record has exactly 7 keys. -/
theorem claim6_all_fields_present :
    (∀ (files : List UploadedFile), ∀ r ∈ (excel_to_json files).1,
      r.keys = field_names ∧ r.length = 7) ∧
    (∀ (entries : List Entry) (out : List Record),
      rearrange_json_fields entries = .ok out →
      ∀ r ∈ out, r.keys = field_order ∧ r.length = 7) := by
  constructor
  · intro files
    induction files with
    | nil => simp [excel_to_json]
    | cons f fs ih =>
      intro r hr
      rw [excel_to_json_cons] at hr
      rcases List.mem_append.mp hr with h | h
      · obtain ⟨cells, hcell, hlen⟩ := processFile_mem f r h
        subst hcell
        exact ⟨mkRecord_keys cells (by omega), mkRecord_length cells (by omega)⟩
      · exact ih r h
  · intro entries out h r hr
    obtain ⟨r0, hr0⟩ := rearrange_out_shape entries out h r hr
    subst hr0
    exact ⟨rearrangeRecord_keys r0, rearrangeRecord_length r0⟩

/-- C7: an exception while processing one file is caught and reported,
that file contributes zero records, the remaining files are still
processed, and `excel_to_json` returns the record set built from the
successfully processed files. -/
theorem claim7_failure_isolation (fs gs : List UploadedFile) (file : String) :
    excel_to_json (fs ++ .bad file :: gs) =
      ((excel_to_json fs).1 ++ (excel_to_json gs).1,
       (excel_to_json fs).2 ++
         Report.processingError file :: (excel_to_json gs).2) := by
  rw [excel_to_json_append, excel_to_json_cons]
  simp [processFile]

/-- C8: the serializer does not mutate its input record set — the record
set after the call is the input as given. -/
theorem claim8_no_mutation (json_data : List Record) :
    (json_to_excel json_data).2 = json_data := rfl

/-- C9: the serializer's output sheet has as column headers exactly the
union of the field names encountered across records, in first-appearance
order (`dedupFirst` of all keys in record order), and every row holds,
per header, the record's value, a `none` (blank) cell exactly when the
field is absent from the record. -/
theorem claim9_columns_first_appearance (l : List Record) :
    (json_to_excel l).1.sheetName = "Staff Data" ∧
    (json_to_excel l).1.header = dedupFirst (allKeys l) ∧
    (∀ k, k ∈ (json_to_excel l).1.header ↔ ∃ r ∈ l, k ∈ r.keys) ∧
    (json_to_excel l).1.rows =
      l.map (fun r => (json_to_excel l).1.header.map (fun h => r.get h)) ∧
    (∀ (r : Record) (k : String), r.get k = none ↔ k ∉ r.keys) := by
  refine ⟨rfl, dataFrameColumns_eq l, ?_, rfl, Record.get_eq_none_iff⟩
  intro k
  have hh : (json_to_excel l).1.header = dataFrameColumns l := rfl
  rw [hh, dataFrameColumns_eq, mem_dedupFirst, mem_allKeys]

/-- C10: an input list whose entries are mappings up to the first
non-mapping entry makes the rearranger raise at that entry: the whole
call yields the exception and no record list at all, regardless of the
entries before or after it. -/
theorem claim10_nonmap_aborts (pre : List Record) (err : String)
    (rest : List Entry) :
    rearrange_json_fields (pre.map Entry.map ++ .nonMap err :: rest) =
      .error err := by
  induction pre with
  | nil => rfl
  | cons r pre ih => simp [rearrange_json_fields, ih, Except.map]

end ExcelConsolidator
